import Mathlib

/-!
Verification of `src/functorch/experimental/mixed_dtype.py`.

The file defines a single higher-order operator `mixed_dtype` together with
one handler per dispatch key / dispatch mode:

* `mixed_dtype_dense`            (DispatchKey.CompositeExplicitAutograd)
* `mixed_dtype_autograd`         (DispatchKey.Autograd)
* `mixed_dtype_proxy`            (ProxyTorchDispatchMode), via `trace_mixed_dtype`
* `mixed_dtype_fake_tensor_mode` (FakeTensorMode)
* `mixed_dtype_func`             (DispatchKey.Functionalize)
* a second `mixed_dtype_func`    (TransformType.Functionalize), called
  `mixed_dtype_func_transform` below because Lean forbids the name clash.

The embedding below models tensors as records carrying the fields this code
observes (dtype, requires_grad, an abstract payload, and an optional
functionalization-wrapper level), pytrees as a small inductive of leaves and
binary container spines, and the host dispatcher as an explicit state machine
(TLS dispatch-key exclusion set, dispatch-mode stack, functorch interpreter
stack, the proxy tracer graph, and a counter of wrapped-op invocations).
Recursive re-entry into the `mixed_dtype` operator is modelled with a fuel
parameter.
-/

namespace MixedDtype

/-- Numeric precisions (`torch.dtype`) as far as this code observes them. -/
inductive DType
  | float32
  | float16
  | bfloat16
  deriving DecidableEq, BEq, Repr

/-- A tensor, reduced to the fields `mixed_dtype.py` observes: its dtype, its
`requires_grad` flag, an abstract payload standing for the storage, and an
optional functionalization-wrapper level (`none` means a real, unwrapped
tensor; `some l` means a functionalized wrapper at functorch level `l`). -/
structure Tensor where
  dtype : DType
  requires_grad : Bool
  data : Int
  functional : Option Nat
  deriving DecidableEq, BEq, Repr

/-- Embeds `torch.Tensor.to(dtype=out_dtype)`: the same tensor casted to the
requested dtype. -/
def Tensor.to (t : Tensor) (out_dtype : DType) : Tensor :=
  { t with dtype := out_dtype }

/-- A pytree value: a tensor leaf, a non-tensor leaf (an opaque Python scalar),
or a container, modelled as a nil/cons spine so that arbitrary nesting of
containers around leaves is representable. -/
inductive Val
  | tensor (t : Tensor)
  | const (n : Int)
  | nil
  | cons (hd tl : Val)
  deriving DecidableEq, BEq, Repr

/-- The tensor carried by a leaf, if the leaf is a tensor
(`isinstance(f, torch.Tensor)`). -/
def tensorLeaf : Val → Option Tensor
  | .tensor t => some t
  | _ => none

/-- Modelled from the spec: `pytree.tree_map_only(torch.Tensor, f, v)` applies
`f` to every tensor-typed leaf of the argument structure, recursively,
preserving the container structure and leaving non-tensor leaves unchanged. -/
def treeMapOnlyTensor (f : Tensor → Tensor) : Val → Val
  | .tensor t => .tensor (f t)
  | .const n => .const n
  | .nil => .nil
  | .cons a b => .cons (treeMapOnlyTensor f a) (treeMapOnlyTensor f b)

/-- Modelled from the spec: the leaf list of `pytree.tree_flatten`, in
left-to-right order. -/
def leaves : Val → List Val
  | .tensor t => [.tensor t]
  | .const n => [.const n]
  | .nil => []
  | .cons a b => leaves a ++ leaves b

/-- Leaves of a whole argument tuple (`pytree.tree_flatten(args)` flattens the
variadic tuple through all nesting). -/
def leavesList : List Val → List Val
  | [] => []
  | v :: vs => leaves v ++ leavesList vs

/-- Whether some tensor leaf of `v` satisfies `p`. -/
def anyTensorVal (p : Tensor → Bool) : Val → Bool
  | .tensor t => p t
  | .const _ => false
  | .nil => false
  | .cons a b => anyTensorVal p a || anyTensorVal p b

/-- Whether every tensor leaf of `v` satisfies `p`. -/
def allTensorVal (p : Tensor → Bool) : Val → Bool
  | .tensor t => p t
  | .const _ => true
  | .nil => true
  | .cons a b => allTensorVal p a && allTensorVal p b

/-- `anyTensorVal` over an argument tuple. -/
def anyTensorList (p : Tensor → Bool) : List Val → Bool
  | [] => false
  | v :: vs => anyTensorVal p v || anyTensorList p vs

/-- `allTensorVal` over an argument tuple. -/
def allTensorList (p : Tensor → Bool) : List Val → Bool
  | [] => true
  | v :: vs => allTensorVal p v && allTensorList p vs

/-- Whether any tensor leaf occurs in the argument tuple. -/
def hasTensorList (args : List Val) : Bool :=
  anyTensorList (fun _ => true) args

/-- Whether any functionalized tensor wrapper occurs in the argument tuple. -/
def hasFunctionalList (args : List Val) : Bool :=
  anyTensorList (fun t => t.functional.isSome) args

/-- Python exceptions this code can raise, plus an artifact marker for fuel
exhaustion of the re-entrant dispatch model. -/
inductive PyErr
  | valueError
  | assertionError
  | typeError
  | attrError
  | opFailure (code : Nat)
  | outOfFuel
  deriving DecidableEq, BEq, Repr

/-- A wrapped-operation reference: either a genuine `torch._ops.OpOverload`
(the only recognized operation handle), some other callable Python object, or
a non-callable object. A semantics function gives the behavior of calling the
operation on a flat argument tuple; it may fail, and the failure propagates. -/
inductive OpRef
  | overload (sem : List Val → Except PyErr Val)
  | callableObj (sem : List Val → Except PyErr Val)
  | nonCallable

/-- Embeds `isinstance(op, torch._ops.OpOverload)`. -/
def OpRef.isOpOverload : OpRef → Bool
  | .overload _ => true
  | _ => false

/-- Calling the wrapped operation: `op(*args)`. A non-callable object raises a
TypeError; anything callable runs its semantics. -/
def callRef : OpRef → List Val → Except PyErr Val
  | .overload sem, args => sem args
  | .callableObj sem, args => sem args
  | .nonCallable, _ => .error .typeError

/-- Dispatch keys this module mentions. -/
inductive DispatchKey
  | AutogradCPU
  | Functionalize
  | CompositeExplicitAutograd
  | PythonDispatcher
  | PythonTLSSnapshot
  | ADInplaceOrView
  | BackendSelect
  | AutocastCPU
  deriving DecidableEq, BEq, Repr

/-- Decidable equality of dispatch keys as an executable Boolean. -/
def keyEq : DispatchKey → DispatchKey → Bool
  | .AutogradCPU, .AutogradCPU => true
  | .Functionalize, .Functionalize => true
  | .CompositeExplicitAutograd, .CompositeExplicitAutograd => true
  | .PythonDispatcher, .PythonDispatcher => true
  | .PythonTLSSnapshot, .PythonTLSSnapshot => true
  | .ADInplaceOrView, .ADInplaceOrView => true
  | .BackendSelect, .BackendSelect => true
  | .AutocastCPU, .AutocastCPU => true
  | _, _ => false

/-- Whether a dispatch key is in the TLS exclusion set. -/
def keyExcluded (k : DispatchKey) : List DispatchKey → Bool
  | [] => false
  | k2 :: ks => keyEq k k2 || keyExcluded k ks

/-- The keys `mixed_dtype.fallthrough` is called with (source lines 26-30):
keys the operator registers as pass-through. -/
def mixed_dtype_fallthrough_keys : List DispatchKey :=
  [ .PythonDispatcher, .PythonTLSSnapshot, .ADInplaceOrView,
    .BackendSelect, .AutocastCPU ]

/-- A dispatch mode on the Python mode stack. -/
inductive Mode
  | proxy (enable_tracing : Bool)
  | fake
  deriving DecidableEq, BEq, Repr

/-- A functorch interpreter for the `TransformType.Functionalize` transform:
its level and its `functionalize_add_back_views()` answer. -/
structure Interpreter where
  level : Nat
  functionalize_add_back_views : Bool
  deriving DecidableEq, BEq, Repr

/-- A node recorded by `proxy_mode.tracer.create_proxy`. The `node_op`,
`node_dtype` and `node_args` fields hold the `node_args = (op, out_dtype,
*args)` tuple the source passes through `unwrap_proxy` (proxies are identified
with the values they stand for in this model). -/
structure GraphNode where
  kind : String
  target : String
  node_op : OpRef
  node_dtype : DType
  node_args : List Val
  name : String

/-- The host-framework state a `mixed_dtype` call reads and writes: the TLS
dispatch-key exclusion set, the Python dispatch-mode stack, the functorch
interpreter stack, the proxy tracer graph, a counter of wrapped-operation
invocations (instrumentation used to state claims about whether the wrapped
operation was invoked), and the `_functionalization_reapply_views_tls` flag. -/
structure DispatchState where
  exclude : List DispatchKey
  modes : List Mode
  func_interpreters : List Interpreter
  graph : List GraphNode
  op_calls : Nat
  reapply_views_tls : Bool

/-- Result of one handler or of a whole dispatched call: the value produced
(or the Python exception propagating out) together with the final state. -/
abbrev Res := Except PyErr Val × DispatchState

/-- Casted argument tuple: every tensor leaf casted to `out_dtype`, exactly as
built at source lines 57-59 and 38-40. -/
def castedArgs (out_dtype : DType) (args : List Val) : List Val :=
  args.map (treeMapOnlyTensor (fun arg => arg.to out_dtype))

/-- Embeds `mixed_dtype_dense` (source lines 51-61, key
CompositeExplicitAutograd): cast every tensor leaf of the argument tuple to
`out_dtype`, invoke the wrapped operation on the casted arguments, and return
its result unchanged. -/
def mixed_dtype_dense (op : OpRef) (out_dtype : DType) (args : List Val)
    (s : DispatchState) : Res :=
  let casted_args := castedArgs out_dtype args
  let res := callRef op casted_args
  (res, { s with op_calls := s.op_calls + 1 })

/-- Embeds `mixed_dtype_autograd` (source lines 64-79, key Autograd): flatten
the argument tuple, assert that no tensor leaf requires grad, install an
`ExcludeDispatchKeyGuard` for `DispatchKey.AutogradCPU` (held in the local
`_` for the duration of the re-entrant call and released when the handler
returns, on the error path included), and re-invoke the operator.
`recurse` is the re-entrant call to the `mixed_dtype` operator. -/
def mixed_dtype_autograd
    (recurse : OpRef → DType → List Val → DispatchState → Res)
    (op : OpRef) (out_dtype : DType) (args : List Val)
    (s : DispatchState) : Res :=
  let flat_operands := leavesList args
  if ((flat_operands.filterMap tensorLeaf).all fun f => !f.requires_grad) then
    let saved := s.exclude
    let s1 := { s with exclude := DispatchKey.AutogradCPU :: s.exclude }
    let r := recurse op out_dtype args s1
    (r.1, { r.2 with exclude := saved })
  else
    (.error .assertionError, s)

/-- Embeds `trace_mixed_dtype` (source lines 33-48): raise a ValueError if
`op` is not an OpOverload; otherwise, with proxy-mode tracing disabled, cast
the arguments and invoke the wrapped operation; then record a
`call_function` graph node whose arguments are the original uncasted
`(op, out_dtype, *args)` with the fixed node name `mixed_dtype`, and return
the concrete result (associated to that node by `track_tensor_tree`). -/
def trace_mixed_dtype (func_overload : String) (op : OpRef)
    (out_dtype : DType) (args : List Val) (s : DispatchState) : Res :=
  if !op.isOpOverload then
    (.error .valueError, s)
  else
    let casted_args := castedArgs out_dtype args
    let out := callRef op casted_args
    let s1 := { s with op_calls := s.op_calls + 1 }
    match out with
    | .error e => (.error e, s1)
    | .ok v =>
      let node : GraphNode :=
        { kind := "call_function", target := func_overload, node_op := op,
          node_dtype := out_dtype, node_args := args, name := "mixed_dtype" }
      (.ok v, { s1 with graph := s1.graph ++ [node] })

/-- Embeds `mixed_dtype_proxy` (source lines 82-94, ProxyTorchDispatchMode):
assert a current mode exists, pop it temporarily (pushed back on every exit
path), then either trace (if `mode.enable_tracing`) or fall back to a plain
re-invocation of the operator. A non-proxy mode would fail the
`mode.enable_tracing` attribute access; that branch is unreachable because the
handler is registered for ProxyTorchDispatchMode only. -/
def mixed_dtype_proxy
    (recurse : OpRef → DType → List Val → DispatchState → Res)
    (op : OpRef) (out_dtype : DType) (args : List Val)
    (s : DispatchState) : Res :=
  match s.modes with
  | [] => (.error .assertionError, s)
  | mode :: rest =>
    let s1 := { s with modes := rest }
    let r :=
      match mode with
      | .proxy enable_tracing =>
        if enable_tracing then
          trace_mixed_dtype "mixed_dtype" op out_dtype args s1
        else
          recurse op out_dtype args s1
      | .fake => (.error .attrError, s1)
    (r.1, { r.2 with modes := mode :: r.2.modes })

/-- Embeds `mixed_dtype_fake_tensor_mode` (source lines 97-103,
FakeTensorMode): delegate to the dense handler unchanged. -/
def mixed_dtype_fake_tensor_mode (op : OpRef) (out_dtype : DType)
    (args : List Val) (s : DispatchState) : Res :=
  mixed_dtype_dense op out_dtype args s

/-- Modelled from the spec: `_unwrap_all_tensors_from_functional` unwraps
every functionalized tensor wrapper in a pytree to its underlying real
tensor, leaving real tensors and non-tensor leaves unchanged. The
`reapply_views` flag controls view reconstruction, which has no effect at
this model's level of abstraction. -/
def unwrap_all_tensors_from_functional (reapply_views : Bool) (v : Val) :
    Val :=
  let _ := reapply_views
  treeMapOnlyTensor (fun t => { t with functional := none }) v

/-- Modelled from the spec: `_wrap_all_tensors_to_functional` re-wraps every
tensor in a pytree as a functionalized tensor at the given level. -/
def wrap_all_tensors_to_functional (level : Nat) (v : Val) : Val :=
  treeMapOnlyTensor (fun t => { t with functional := some level }) v

/-- Unwrapped argument tuple, as built at source lines 110-113 and 129-132. -/
def unwrappedArgs (reapply_views : Bool) (args : List Val) : List Val :=
  args.map (unwrap_all_tensors_from_functional reapply_views)

/-- Embeds the first `mixed_dtype_func` (source lines 106-122, key
Functionalize, the legacy convention): read the reapply-views TLS, unwrap
every functionalized tensor in the argument tuple, install an
`ExcludeDispatchKeyGuard` for `DispatchKey.Functionalize`, re-invoke the
operator on the unwrapped arguments, wrap the result back to functional
tensors at level 0, and release the guard in a `finally` block on every exit
path. -/
def mixed_dtype_func
    (recurse : OpRef → DType → List Val → DispatchState → Res)
    (op : OpRef) (out_dtype : DType) (args : List Val)
    (s : DispatchState) : Res :=
  let reapply_views := s.reapply_views_tls
  let unwrapped_args := unwrappedArgs reapply_views args
  let saved := s.exclude
  let s1 := { s with exclude := DispatchKey.Functionalize :: s.exclude }
  let r := recurse op out_dtype unwrapped_args s1
  (r.1.map (wrap_all_tensors_to_functional 0), { r.2 with exclude := saved })

/-- Embeds the second `mixed_dtype_func` (source lines 125-136,
TransformType.Functionalize, the functorch interpreter convention; renamed
here because the Python file shadows the first definition's module-level name
while both stay registered): ask the interpreter whether to add back views,
unwrap every functionalized tensor in the argument tuple, enter
`interpreter.lower()` (which removes the interpreter from the transform stack
and restores it on every exit path), re-invoke the operator on the unwrapped
arguments, and wrap the result back at `interpreter.level()`. -/
def mixed_dtype_func_transform
    (recurse : OpRef → DType → List Val → DispatchState → Res)
    (interpreter : Interpreter) (op : OpRef) (out_dtype : DType)
    (args : List Val) (s : DispatchState) : Res :=
  let reapply_views := interpreter.functionalize_add_back_views
  let unwrapped_args := unwrappedArgs reapply_views args
  let saved := s.func_interpreters
  let s1 := { s with func_interpreters := s.func_interpreters.tail }
  let r := recurse op out_dtype unwrapped_args s1
  (r.1.map (wrap_all_tensors_to_functional interpreter.level),
   { r.2 with func_interpreters := saved })

/-- Modelled from the spec: the host dispatcher for the `mixed_dtype`
operator. It routes a call to the handler of the innermost active functorch
transform if one is on the stack, else to the handler of the topmost dispatch
mode if one is on the stack, else by dispatch key in priority order
Functionalize before Autograd before CompositeExplicitAutograd, skipping keys
in the TLS exclusion set. The Functionalize key applies when a functionalized
tensor is among the arguments; the autograd key (AutogradCPU here) applies
when any tensor is among the arguments, every tensor carrying its backend
autograd key. Fuel bounds the re-entrancy depth. -/
def mixed_dtype_call :
    Nat → OpRef → DType → List Val → DispatchState → Res
  | 0, _, _, _, s => (.error .outOfFuel, s)
  | fuel + 1, op, out_dtype, args, s =>
    match s.func_interpreters with
    | interp :: _ =>
      mixed_dtype_func_transform (mixed_dtype_call fuel) interp op out_dtype
        args s
    | [] =>
      match s.modes with
      | Mode.proxy b :: _ =>
        let _ := b
        mixed_dtype_proxy (mixed_dtype_call fuel) op out_dtype args s
      | Mode.fake :: _ =>
        mixed_dtype_fake_tensor_mode op out_dtype args s
      | [] =>
        if hasFunctionalList args &&
            !keyExcluded DispatchKey.Functionalize s.exclude then
          mixed_dtype_func (mixed_dtype_call fuel) op out_dtype args s
        else if hasTensorList args &&
            !keyExcluded DispatchKey.AutogradCPU s.exclude then
          mixed_dtype_autograd (mixed_dtype_call fuel) op out_dtype args s
        else
          mixed_dtype_dense op out_dtype args s

/-- Structural agreement of two pytrees: the same container spine with leaves
of the same kind (tensor / non-tensor) at the same positions. -/
def sameStructure : Val → Val → Bool
  | .tensor _, .tensor _ => true
  | .const _, .const _ => true
  | .nil, .nil => true
  | .cons a b, .cons c d => sameStructure a c && sameStructure b d
  | _, _ => false

/-- `sameStructure` over argument tuples of the same length. -/
def sameStructureList : List Val → List Val → Bool
  | [], [] => true
  | v :: vs, w :: ws => sameStructure v w && sameStructureList vs ws
  | _, _ => false

/-- The action of a tensor-only map on a single leaf: tensors go through `f`,
everything else is untouched. -/
def mapLeaf (f : Tensor → Tensor) (l : Val) : Val :=
  match tensorLeaf l with
  | some t => .tensor (f t)
  | none => l

/-- A real float32 tensor with `requires_grad = False`, for concrete runs. -/
def t0 : Tensor :=
  { dtype := .float32, requires_grad := false, data := 5, functional := none }

/-- A float32 tensor with `requires_grad = True`. -/
def tGrad : Tensor :=
  { dtype := .float32, requires_grad := true, data := 5, functional := none }

/-- A functionalized wrapper (level 0) around a float32 tensor. -/
def tFun : Tensor :=
  { dtype := .float32, requires_grad := false, data := 5, functional := some 0 }

/-- An initial dispatch state: nothing excluded, no modes, no interpreters,
empty graph. -/
def st0 : DispatchState :=
  { exclude := [], modes := [], func_interpreters := [], graph := [],
    op_calls := 0, reapply_views_tls := false }

/-- The state `st0` with a tracing-enabled proxy mode on the mode stack. -/
def stProxy : DispatchState :=
  { st0 with modes := [Mode.proxy true] }

/-- A Functionalize interpreter at functorch level 2. -/
def interp2 : Interpreter :=
  { level := 2, functionalize_add_back_views := false }

/-- The state `st0` with one Functionalize interpreter on the functorch
stack. -/
def stInterp : DispatchState :=
  { st0 with func_interpreters := [interp2] }

/-- The semantics of a trivial operation that ignores its inputs and returns
the Python scalar 3. -/
def semConst3 : List Val → Except PyErr Val := fun _ => .ok (.const 3)

/-- An OpOverload for `semConst3`. -/
def opConst3 : OpRef := .overload semConst3

/-- A callable Python object that is not an OpOverload. -/
def opNotOverload : OpRef := .callableObj (fun _ => .ok (.const 7))

/-- An OpOverload that ignores its inputs and returns a fixed float32 tensor
regardless of the requested precision. -/
def opConstF32 : OpRef := .overload (fun _ => .ok (.tensor t0))

/-- A tensor-only map preserves the container structure of a pytree. -/
theorem sameStructure_map (f : Tensor → Tensor) :
    ∀ v, sameStructure v (treeMapOnlyTensor f v) = true
  | .tensor _ => rfl
  | .const _ => rfl
  | .nil => rfl
  | .cons a b => by
    simp [treeMapOnlyTensor, sameStructure, sameStructure_map f a,
      sameStructure_map f b]

/-- A tensor-only map preserves the structure of an argument tuple. -/
theorem sameStructureList_map (f : Tensor → Tensor) :
    ∀ args, sameStructureList args (args.map (treeMapOnlyTensor f)) = true
  | [] => rfl
  | v :: vs => by
    simp [sameStructureList, sameStructure_map f v, sameStructureList_map f vs]

/-- The leaf list of a tensor-only map is the leafwise image of the original
leaf list. -/
theorem leaves_map (f : Tensor → Tensor) :
    ∀ v, leaves (treeMapOnlyTensor f v) = (leaves v).map (mapLeaf f)
  | .tensor _ => rfl
  | .const _ => rfl
  | .nil => rfl
  | .cons a b => by
    simp [treeMapOnlyTensor, leaves, leaves_map f a, leaves_map f b]

/-- `leaves_map` for whole argument tuples. -/
theorem leavesList_map (f : Tensor → Tensor) :
    ∀ args,
      leavesList (args.map (treeMapOnlyTensor f))
        = (leavesList args).map (mapLeaf f)
  | [] => rfl
  | v :: vs => by
    simp [leavesList, leaves_map f v, leavesList_map f vs]

/-- Predicate transport along a tensor-only map, existential version. -/
theorem anyTensorVal_map (p : Tensor → Bool) (f : Tensor → Tensor) :
    ∀ v, anyTensorVal p (treeMapOnlyTensor f v)
        = anyTensorVal (fun t => p (f t)) v
  | .tensor _ => rfl
  | .const _ => rfl
  | .nil => rfl
  | .cons a b => by
    simp [treeMapOnlyTensor, anyTensorVal, anyTensorVal_map p f a,
      anyTensorVal_map p f b]

/-- Predicate transport along a tensor-only map, universal version. -/
theorem allTensorVal_map (p : Tensor → Bool) (f : Tensor → Tensor) :
    ∀ v, allTensorVal p (treeMapOnlyTensor f v)
        = allTensorVal (fun t => p (f t)) v
  | .tensor _ => rfl
  | .const _ => rfl
  | .nil => rfl
  | .cons a b => by
    simp [treeMapOnlyTensor, allTensorVal, allTensorVal_map p f a,
      allTensorVal_map p f b]

/-- `anyTensorVal_map` for argument tuples. -/
theorem anyTensorList_map (p : Tensor → Bool) (f : Tensor → Tensor) :
    ∀ args, anyTensorList p (args.map (treeMapOnlyTensor f))
        = anyTensorList (fun t => p (f t)) args
  | [] => rfl
  | v :: vs => by
    simp [anyTensorList, anyTensorVal_map p f v, anyTensorList_map p f vs]

/-- `allTensorVal_map` for argument tuples. -/
theorem allTensorList_map (p : Tensor → Bool) (f : Tensor → Tensor) :
    ∀ args, allTensorList p (args.map (treeMapOnlyTensor f))
        = allTensorList (fun t => p (f t)) args
  | [] => rfl
  | v :: vs => by
    simp [allTensorList, allTensorVal_map p f v, allTensorList_map p f vs]

/-- The constantly-false tensor predicate holds of no pytree. -/
theorem anyTensorVal_false : ∀ v, anyTensorVal (fun _ => false) v = false
  | .tensor _ => rfl
  | .const _ => rfl
  | .nil => rfl
  | .cons a b => by
    simp [anyTensorVal, anyTensorVal_false a, anyTensorVal_false b]

/-- `anyTensorVal_false` for argument tuples. -/
theorem anyTensorList_false :
    ∀ args, anyTensorList (fun _ => false) args = false
  | [] => rfl
  | v :: vs => by
    simp [anyTensorList, anyTensorVal_false v, anyTensorList_false vs]

/-- The constantly-true tensor predicate holds of every pytree. -/
theorem allTensorVal_true : ∀ v, allTensorVal (fun _ => true) v = true
  | .tensor _ => rfl
  | .const _ => rfl
  | .nil => rfl
  | .cons a b => by
    simp [allTensorVal, allTensorVal_true a, allTensorVal_true b]

/-- `allTensorVal_true` for argument tuples. -/
theorem allTensorList_true :
    ∀ args, allTensorList (fun _ => true) args = true
  | [] => rfl
  | v :: vs => by
    simp [allTensorList, allTensorVal_true v, allTensorList_true vs]

/-- The tensor-filtered flattened-leaf check used by the autograd assertion
coincides with the universal tensor-leaf predicate, per pytree. -/
theorem assert_leaves (p : Tensor → Bool) :
    ∀ v, ((leaves v).filterMap tensorLeaf).all p = allTensorVal p v
  | .tensor t => by simp [leaves, tensorLeaf, List.filterMap, allTensorVal]
  | .const n => by simp [leaves, tensorLeaf, List.filterMap, allTensorVal]
  | .nil => rfl
  | .cons a b => by
    simp [leaves, allTensorVal, List.filterMap_append, List.all_append,
      assert_leaves p a, assert_leaves p b]

/-- `assert_leaves` for whole argument tuples. -/
theorem assert_leavesList (p : Tensor → Bool) :
    ∀ args, ((leavesList args).filterMap tensorLeaf).all p
        = allTensorList p args
  | [] => rfl
  | v :: vs => by
    simp [leavesList, allTensorList, List.filterMap_append, List.all_append,
      assert_leaves p v, assert_leavesList p vs]

/-- Boolean reflexivity of dtype equality. -/
theorem dtype_beq_self : ∀ d : DType, (d == d) = true := by
  intro d
  cases d <;> rfl

/-- After casting, every tensor leaf of the argument tuple has the target
dtype. -/
theorem castedArgs_allDType (d : DType) (args : List Val) :
    allTensorList (fun t => t.dtype == d) (castedArgs d args) = true := by
  unfold castedArgs
  rw [allTensorList_map]
  have h2 : (fun t : Tensor => ((t.to d).dtype == d))
      = (fun _ : Tensor => true) := by
    funext t
    simp [Tensor.to, dtype_beq_self]
  rw [h2, allTensorList_true]

/-- Unwrapping functional wrappers does not change any requires_grad flag,
so the autograd assertion transfers between the wrapped and the unwrapped
argument tuples. -/
theorem unwrappedArgs_grad (rv : Bool) (args : List Val) :
    allTensorList (fun f => !f.requires_grad) (unwrappedArgs rv args)
      = allTensorList (fun f => !f.requires_grad) args := by
  show allTensorList (fun f => !f.requires_grad)
      (args.map (treeMapOnlyTensor (fun t => { t with functional := none })))
    = allTensorList (fun f => !f.requires_grad) args
  rw [allTensorList_map]

/-- After unwrapping, no functionalized tensor wrapper remains in the
argument tuple. -/
theorem unwrappedArgs_noFunctional (rv : Bool) (args : List Val) :
    hasFunctionalList (unwrappedArgs rv args) = false := by
  show anyTensorList (fun t => t.functional.isSome)
      (args.map (treeMapOnlyTensor (fun t => { t with functional := none })))
    = false
  rw [anyTensorList_map]
  exact anyTensorList_false args

/-- Wrapping to functional preserves every dtype fact about tensor leaves. -/
theorem wrap_allDType (lvl : Nat) (d : DType) (v : Val)
    (h : allTensorVal (fun t => t.dtype == d) v = true) :
    allTensorVal (fun t => t.dtype == d)
      (wrap_all_tensors_to_functional lvl v) = true := by
  show allTensorVal (fun t => t.dtype == d)
      (treeMapOnlyTensor (fun t => { t with functional := some lvl }) v)
    = true
  rw [allTensorVal_map]
  exact h

/-- Every tensor leaf of a wrapped result carries the wrapping level. -/
theorem wrap_level (lvl : Nat) (v : Val) :
    allTensorVal (fun t => t.functional == some lvl)
      (wrap_all_tensors_to_functional lvl v) = true := by
  show allTensorVal (fun t => t.functional == some lvl)
      (treeMapOnlyTensor (fun t => { t with functional := some lvl }) v)
    = true
  rw [allTensorVal_map]
  have h : (fun t : Tensor => ((some lvl : Option Nat) == some lvl))
      = (fun _ : Tensor => true) := by
    funext t
    simp
  rw [h, allTensorVal_true]

/-- Running the autograd handler with the real dispatcher as its re-entrant
call, under its precondition and with no active mode, interpreter, or
functionalized input: the AutogradCPU key is excluded, the re-invocation
lands in the dense handler, and the exclusion set ends up restored. -/
theorem run_autograd (n : Nat) (op : OpRef) (d : DType) (args : List Val)
    (s : DispatchState)
    (hm : s.modes = []) (hfi : s.func_interpreters = [])
    (hnf : hasFunctionalList args = false)
    (hg : allTensorList (fun f => !f.requires_grad) args = true) :
    mixed_dtype_autograd (mixed_dtype_call (n + 1)) op d args s
      = (callRef op (castedArgs d args),
         { s with op_calls := s.op_calls + 1 }) := by
  simp only [mixed_dtype_autograd, assert_leavesList, hg, if_true,
    mixed_dtype_call, hfi, hm, hnf, mixed_dtype_dense, keyExcluded, keyEq,
    Bool.false_and, Bool.false_or, Bool.true_or, Bool.not_true,
    Bool.and_false, if_false, Bool.false_eq_true, if_true, if_false]

/-- Running the legacy Functionalize handler with the real dispatcher as its
re-entrant call, under the autograd precondition and with no active mode or
interpreter: the result is the wrapped (level 0) outcome of the dense
computation on the unwrapped arguments, and only the invocation counter
changes. -/
theorem run_func (n : Nat) (op : OpRef) (d : DType) (args : List Val)
    (s : DispatchState)
    (hm : s.modes = []) (hfi : s.func_interpreters = [])
    (hg : allTensorList (fun f => !f.requires_grad) args = true) :
    mixed_dtype_func (mixed_dtype_call (n + 1 + 1)) op d args s
      = ((callRef op
            (castedArgs d (unwrappedArgs s.reapply_views_tls args))).map
           (wrap_all_tensors_to_functional 0),
         { s with op_calls := s.op_calls + 1 }) := by
  have hg2 : allTensorList (fun f => !f.requires_grad)
      (unwrappedArgs s.reapply_views_tls args) = true := by
    rw [unwrappedArgs_grad]
    exact hg
  have hnf2 : hasFunctionalList (unwrappedArgs s.reapply_views_tls args)
      = false := unwrappedArgs_noFunctional _ _
  have hinner :
      mixed_dtype_call (n + 1 + 1) op d
          (unwrappedArgs s.reapply_views_tls args)
          { s with exclude := DispatchKey.Functionalize :: s.exclude }
        = (callRef op (castedArgs d (unwrappedArgs s.reapply_views_tls args)),
           { s with
               exclude := DispatchKey.Functionalize :: s.exclude,
               op_calls := s.op_calls + 1 }) := by
    rw [mixed_dtype_call]
    simp only [hfi, hm, hnf2, keyExcluded, keyEq, Bool.false_and,
      Bool.false_or, Bool.true_or, Bool.not_true, Bool.and_false,
      Bool.false_eq_true, if_true, if_false]
    cases hc : (hasTensorList (unwrappedArgs s.reapply_views_tls args)
        && !keyExcluded DispatchKey.AutogradCPU s.exclude) with
    | false =>
      simp only [hc, Bool.false_eq_true, if_false, mixed_dtype_dense]
    | true =>
      simp only [hc, if_true]
      rw [run_autograd n op d (unwrappedArgs s.reapply_views_tls args)
        ⟨DispatchKey.Functionalize :: s.exclude, [], [], s.graph,
          s.op_calls, s.reapply_views_tls⟩ rfl rfl hnf2 hg2]
  simp only [mixed_dtype_func]
  rw [hinner]

/-- Running the functorch Functionalize handler with the real dispatcher as
its re-entrant call, under the autograd precondition, with no active mode and
with this interpreter innermost on the transform stack: the result is the
wrapped (interpreter-level) outcome of the dense computation on the
unwrapped arguments, and only the invocation counter changes. -/
theorem run_transform (n : Nat) (interp : Interpreter) (op : OpRef)
    (d : DType) (args : List Val) (s : DispatchState)
    (hm : s.modes = []) (hfi : s.func_interpreters.tail = [])
    (hg : allTensorList (fun f => !f.requires_grad) args = true) :
    mixed_dtype_func_transform (mixed_dtype_call (n + 1 + 1)) interp op d
        args s
      = ((callRef op
            (castedArgs d
              (unwrappedArgs interp.functionalize_add_back_views args))).map
           (wrap_all_tensors_to_functional interp.level),
         { s with op_calls := s.op_calls + 1 }) := by
  have hg2 : allTensorList (fun f => !f.requires_grad)
      (unwrappedArgs interp.functionalize_add_back_views args) = true := by
    rw [unwrappedArgs_grad]
    exact hg
  have hnf2 : hasFunctionalList
      (unwrappedArgs interp.functionalize_add_back_views args) = false :=
    unwrappedArgs_noFunctional _ _
  have hinner :
      mixed_dtype_call (n + 1 + 1) op d
          (unwrappedArgs interp.functionalize_add_back_views args)
          { s with func_interpreters := s.func_interpreters.tail }
        = (callRef op
             (castedArgs d
               (unwrappedArgs interp.functionalize_add_back_views args)),
           { s with
               func_interpreters := s.func_interpreters.tail,
               op_calls := s.op_calls + 1 }) := by
    rw [mixed_dtype_call]
    simp only [hfi, hm, hnf2, keyExcluded, keyEq, Bool.false_and,
      Bool.false_or, Bool.not_true, Bool.and_false,
      Bool.false_eq_true, if_true, if_false]
    cases hc : (hasTensorList
          (unwrappedArgs interp.functionalize_add_back_views args)
        && !keyExcluded DispatchKey.AutogradCPU s.exclude) with
    | false =>
      simp only [hc, Bool.false_eq_true, if_false, mixed_dtype_dense]
    | true =>
      simp only [hc, if_true]
      rw [run_autograd n op d
        (unwrappedArgs interp.functionalize_add_back_views args)
        ⟨s.exclude, [], [], s.graph, s.op_calls, s.reapply_views_tls⟩
        rfl rfl hnf2 hg2]
  simp only [mixed_dtype_func_transform]
  rw [hinner]

/-- Running a dispatched call under a tracing-enabled proxy mode, for an
OpOverload whose invocation on the casted arguments succeeds: the call
returns the concrete casted result and appends exactly one graph node whose
stored arguments are the original uncasted ones. -/
theorem run_proxy_traced (n : Nat) (sem : List Val → Except PyErr Val)
    (d : DType) (args : List Val) (s : DispatchState) (rest : List Mode)
    (v : Val)
    (hfi : s.func_interpreters = [])
    (hmodes : s.modes = Mode.proxy true :: rest)
    (hok : sem (castedArgs d args) = .ok v) :
    mixed_dtype_call (n + 1) (OpRef.overload sem) d args s
      = (.ok v,
         { s with
           op_calls := s.op_calls + 1,
           graph := s.graph ++
             [{ kind := "call_function", target := "mixed_dtype",
                node_op := OpRef.overload sem, node_dtype := d,
                node_args := args, name := "mixed_dtype" }] }) := by
  simp only [mixed_dtype_call, hfi, hmodes, mixed_dtype_proxy,
    trace_mixed_dtype, OpRef.isOpOverload, callRef, hok, Bool.not_true,
    if_false, if_true, Bool.false_eq_true, if_true, if_false]

/-- Running a dispatched call under a tracing-enabled proxy mode, for an
OpOverload whose invocation on the casted arguments raises: the exception
propagates, no graph node is recorded, and the temporarily popped mode is
pushed back. -/
theorem run_proxy_traced_err (n : Nat) (sem : List Val → Except PyErr Val)
    (d : DType) (args : List Val) (s : DispatchState) (rest : List Mode)
    (e : PyErr)
    (hfi : s.func_interpreters = [])
    (hmodes : s.modes = Mode.proxy true :: rest)
    (herr : sem (castedArgs d args) = .error e) :
    mixed_dtype_call (n + 1) (OpRef.overload sem) d args s
      = (.error e, { s with op_calls := s.op_calls + 1 }) := by
  simp only [mixed_dtype_call, hfi, hmodes, mixed_dtype_proxy,
    trace_mixed_dtype, OpRef.isOpOverload, callRef, herr, Bool.not_true,
    if_false, if_true, Bool.false_eq_true]

/-- C1: for every argument tuple, the dense/eager handler casts every
tensor-typed leaf of the argument structure to the target precision —
recursively, preserving the container structure and mapping the leaf list
leafwise (tensors casted) — invokes the wrapped operation on the casted
arguments, and returns its result unchanged. -/
theorem dense_casts_all_tensor_leaves (op : OpRef) (out_dtype : DType)
    (args : List Val) (s : DispatchState) :
    sameStructureList args (castedArgs out_dtype args) = true
    ∧ allTensorList (fun t => t.dtype == out_dtype)
        (castedArgs out_dtype args) = true
    ∧ leavesList (castedArgs out_dtype args)
        = (leavesList args).map (mapLeaf (fun t => t.to out_dtype))
    ∧ mixed_dtype_dense op out_dtype args s
        = (callRef op (castedArgs out_dtype args),
           { s with op_calls := s.op_calls + 1 }) :=
  ⟨sameStructureList_map _ args, castedArgs_allDType out_dtype args,
   leavesList_map _ args, rfl⟩

/-- C5: the shape-inference handler is extensionally equal to the dense
handler: on every input (operation, precision, argument tuple) and in every
state the two handlers return identical results. -/
theorem fake_tensor_mode_eq_dense (op : OpRef) (out_dtype : DType)
    (args : List Val) (s : DispatchState) :
    mixed_dtype_fake_tensor_mode op out_dtype args s
      = mixed_dtype_dense op out_dtype args s := rfl

/-- C10: in the dense handler, casting touches only tensors: the leaf list
of the casted tuple is the original leaf list mapped leafwise, the leafwise
map is the identity on every non-tensor leaf, and the wrapped operation is
invoked exactly on that casted tuple. -/
theorem dense_preserves_non_tensors (op : OpRef) (out_dtype : DType)
    (args : List Val) (s : DispatchState) :
    leavesList (castedArgs out_dtype args)
      = (leavesList args).map (mapLeaf (fun t => t.to out_dtype))
    ∧ (∀ l, tensorLeaf l = none → mapLeaf (fun t => t.to out_dtype) l = l)
    ∧ mixed_dtype_dense op out_dtype args s
        = (callRef op (castedArgs out_dtype args),
           { s with op_calls := s.op_calls + 1 }) := by
  refine ⟨leavesList_map _ args, ?_, rfl⟩
  intro l hl
  simp [mapLeaf, hl]

/-- Witness for C10 at a concrete non-tensor leaf. -/
theorem dense_preserves_non_tensors_witness :
    tensorLeaf (Val.const 5) = none
    ∧ mapLeaf (fun t => t.to DType.float16) (Val.const 5) = Val.const 5 :=
  ⟨rfl, (dense_preserves_non_tensors opConst3 DType.float16 [Val.const 5]
      st0).2.1 (Val.const 5) rfl⟩

/-- C3: if at least one tensor leaf of the flattened argument tuple requires
grad, the autograd handler fails with an assertion failure and leaves the
state untouched — in particular the wrapped operation is never invoked, no
matter what the re-entrant call would do; if no tensor leaf requires grad,
the assertion passes and the handler proceeds to the guarded re-invocation,
whose result it returns with the exclusion guard released. -/
theorem autograd_requires_grad_assert
    (recurse : OpRef → DType → List Val → DispatchState → Res)
    (op : OpRef) (out_dtype : DType) (args : List Val) (s : DispatchState) :
    ((((leavesList args).filterMap tensorLeaf).all fun f => !f.requires_grad)
        = false →
      mixed_dtype_autograd recurse op out_dtype args s
        = (.error .assertionError, s))
    ∧ ((((leavesList args).filterMap tensorLeaf).all
          fun f => !f.requires_grad) = true →
      mixed_dtype_autograd recurse op out_dtype args s
        = ((recurse op out_dtype args
             { s with exclude := DispatchKey.AutogradCPU :: s.exclude }).1,
           { (recurse op out_dtype args
                { s with
                  exclude := DispatchKey.AutogradCPU :: s.exclude }).2 with
             exclude := s.exclude })) := by
  constructor
  · intro h
    simp [mixed_dtype_autograd, h]
  · intro h
    simp [mixed_dtype_autograd, h]

/-- Witness for C3: a concrete requires-grad tensor triggers the assertion
failure with the state unchanged. -/
theorem autograd_requires_grad_assert_witness :
    (((leavesList [Val.tensor tGrad]).filterMap tensorLeaf).all
        fun f => !f.requires_grad) = false
    ∧ mixed_dtype_autograd (mixed_dtype_call 1) opConst3 DType.float16
        [Val.tensor tGrad] st0 = (.error .assertionError, st0) :=
  ⟨rfl, (autograd_requires_grad_assert (mixed_dtype_call 1) opConst3
      DType.float16 [Val.tensor tGrad] st0).1 rfl⟩

/-- C7: both functionalization handlers release their acquired resource on
every exit path: whatever the re-entrant invocation does — any
error-returning `recurse` included, so in particular when the nested
invocation raises — the legacy handler restores the TLS exclusion set
exactly and the interpreter handler restores the functorch interpreter
stack exactly. -/
theorem functionalize_guard_released
    (recurse recurse2 : OpRef → DType → List Val → DispatchState → Res)
    (interp : Interpreter) (op : OpRef) (out_dtype : DType)
    (args : List Val) (s s2 : DispatchState) :
    (mixed_dtype_func recurse op out_dtype args s).2.exclude = s.exclude
    ∧ (mixed_dtype_func_transform recurse2 interp op out_dtype args
        s2).2.func_interpreters = s2.func_interpreters :=
  ⟨rfl, rfl⟩

/-- C8: under the no-grad precondition (and with no mode, interpreter or
functionalized input interfering), the autograd handler excludes the
AutogradCPU dispatch key for the duration of its re-invocation — the
re-entrant call therefore resolves to the more specific dense handler, and
the handler's result equals the dense handler's result — and the exclusion
is temporary: the final exclusion set equals the initial one. -/
theorem autograd_exclusion_temporary (n : Nat) (op : OpRef) (d : DType)
    (args : List Val) (s : DispatchState)
    (hm : s.modes = []) (hfi : s.func_interpreters = [])
    (hnf : hasFunctionalList args = false)
    (hg : allTensorList (fun f => !f.requires_grad) args = true) :
    keyExcluded DispatchKey.AutogradCPU
        (DispatchKey.AutogradCPU :: s.exclude) = true
    ∧ (mixed_dtype_autograd (mixed_dtype_call (n + 1)) op d args s).1
        = (mixed_dtype_dense op d args s).1
    ∧ (mixed_dtype_autograd (mixed_dtype_call (n + 1)) op d args s).2.exclude
        = s.exclude := by
  rw [run_autograd n op d args s hm hfi hnf hg]
  exact ⟨by simp [keyExcluded, keyEq], rfl, rfl⟩

/-- Witness for C8 at a concrete no-grad tensor argument. -/
theorem autograd_exclusion_temporary_witness :
    st0.modes = [] ∧ st0.func_interpreters = []
    ∧ hasFunctionalList [Val.tensor t0] = false
    ∧ allTensorList (fun f => !f.requires_grad) [Val.tensor t0] = true
    ∧ (mixed_dtype_autograd (mixed_dtype_call 1) opConst3 DType.float16
        [Val.tensor t0] st0).2.exclude = st0.exclude :=
  ⟨rfl, rfl, rfl, rfl,
   (autograd_exclusion_temporary 0 opConst3 DType.float16 [Val.tensor t0]
      st0 rfl rfl rfl rfl).2.2⟩

/-- C2 counterexample: at a concrete call, the dense/eager handler invoked
with a wrapped-operation reference that is not an OpOverload does not fail
with a value error: it proceeds to cast and invoke the operation (the
invocation counter increases) and returns the operation's result. -/
theorem dense_no_op_overload_check :
    (mixed_dtype_dense opNotOverload DType.float16 [Val.tensor t0] st0).1
      ≠ Except.error PyErr.valueError
    ∧ (mixed_dtype_dense opNotOverload DType.float16 [Val.tensor t0] st0).1
      = Except.ok (Val.const 7)
    ∧ (mixed_dtype_dense opNotOverload DType.float16 [Val.tensor t0]
        st0).2.op_calls = st0.op_calls + 1 := by
  have h2 : (mixed_dtype_dense opNotOverload DType.float16 [Val.tensor t0]
      st0).1 = Except.ok (Val.const 7) := rfl
  refine ⟨?_, h2, rfl⟩
  intro h
  rw [h2] at h
  exact Except.noConfusion h

/-- C2 amended: the OpOverload validation lives only in the trace path:
under a tracing-enabled proxy mode a non-OpOverload reference raises a
ValueError immediately, with the state unchanged (no graph node, no
invocation), while the dense/eager handler performs no such check and
proceeds to cast and invoke any callable. -/
theorem op_overload_check_only_in_trace (n : Nat) (op : OpRef) (d : DType)
    (args : List Val) (s : DispatchState) (rest : List Mode)
    (hop : op.isOpOverload = false)
    (hfi : s.func_interpreters = [])
    (hmodes : s.modes = Mode.proxy true :: rest) :
    mixed_dtype_call (n + 1) op d args s = (.error .valueError, s)
    ∧ trace_mixed_dtype "mixed_dtype" op d args s = (.error .valueError, s)
    ∧ ∀ (sem : List Val → Except PyErr Val) (s2 : DispatchState),
        (mixed_dtype_dense (OpRef.callableObj sem) d args s2).1
            = sem (castedArgs d args)
        ∧ (mixed_dtype_dense (OpRef.callableObj sem) d args s2).2.op_calls
            = s2.op_calls + 1 := by
  refine ⟨?_, ?_, fun sem s2 => ⟨rfl, rfl⟩⟩
  · simp only [mixed_dtype_call, hfi, hmodes, mixed_dtype_proxy,
      trace_mixed_dtype, hop, Bool.not_false, if_true, Bool.false_eq_true,
      if_false]
    rw [← hmodes, ← hfi]
  · simp only [trace_mixed_dtype, hop, Bool.not_false, if_true]

/-- Witness for the amended C2 at a concrete non-OpOverload reference under
a tracing-enabled proxy mode. -/
theorem op_overload_check_only_in_trace_witness :
    OpRef.isOpOverload opNotOverload = false
    ∧ stProxy.func_interpreters = []
    ∧ stProxy.modes = Mode.proxy true :: []
    ∧ mixed_dtype_call 1 opNotOverload DType.float16 [Val.tensor t0] stProxy
        = (.error .valueError, stProxy) :=
  ⟨rfl, rfl, rfl,
   (op_overload_check_only_in_trace 0 opNotOverload DType.float16
      [Val.tensor t0] stProxy [] rfl rfl rfl).1⟩

/-- C4: under graph capture with tracing enabled, a dispatched call records
exactly one graph node, whose stored arguments are the original uncasted
operation reference, precision, and argument tuple under the fixed node
name mixed_dtype, while the value returned is the wrapped operation's
concrete result on the casted arguments. -/
theorem trace_records_uncasted_args (n : Nat)
    (sem : List Val → Except PyErr Val) (d : DType) (args : List Val)
    (s : DispatchState) (rest : List Mode) (v : Val)
    (hfi : s.func_interpreters = [])
    (hmodes : s.modes = Mode.proxy true :: rest)
    (hok : sem (castedArgs d args) = .ok v) :
    mixed_dtype_call (n + 1) (OpRef.overload sem) d args s
      = (.ok v,
         { s with
           op_calls := s.op_calls + 1,
           graph := s.graph ++
             [{ kind := "call_function", target := "mixed_dtype",
                node_op := OpRef.overload sem, node_dtype := d,
                node_args := args, name := "mixed_dtype" }] }) :=
  run_proxy_traced n sem d args s rest v hfi hmodes hok

/-- Witness for C4 at a concrete traced call. -/
theorem trace_records_uncasted_args_witness :
    semConst3 (castedArgs DType.float16 [Val.tensor t0])
        = Except.ok (Val.const 3)
    ∧ mixed_dtype_call 1 (OpRef.overload semConst3) DType.float16
        [Val.tensor t0] stProxy
      = (Except.ok (Val.const 3),
         { stProxy with
           op_calls := 1,
           graph := [{ kind := "call_function", target := "mixed_dtype",
                       node_op := OpRef.overload semConst3,
                       node_dtype := DType.float16,
                       node_args := [Val.tensor t0],
                       name := "mixed_dtype" }] }) :=
  ⟨rfl, trace_records_uncasted_args 0 semConst3 DType.float16
      [Val.tensor t0] stProxy [] (Val.const 3) rfl rfl rfl⟩

/-- C6: both functionalization handlers round-trip: with the real dispatcher
as the re-entrant call, each handler unwraps every functionalized wrapper in
the argument tuple, re-invokes the operator on the unwrapped real tensors
(resolving to the dense computation), and re-wraps the result as functional
tensors — at level 0 for the legacy handler and at the interpreter's level
for the interpreter handler, the levels at which the respective conventions
keep their inputs — so the returned value is exactly the functional wrapping
of the dense/eager handler's result on the unwrapped real tensors, and every
tensor of a successful result carries that wrapper level. -/
theorem functionalize_round_trip (n : Nat) (interp : Interpreter)
    (op : OpRef) (d : DType) (args : List Val) (s s2 : DispatchState)
    (hm : s.modes = []) (hfi : s.func_interpreters = [])
    (hm2 : s2.modes = []) (hfi2 : s2.func_interpreters.tail = [])
    (hg : allTensorList (fun f => !f.requires_grad) args = true) :
    (mixed_dtype_func (mixed_dtype_call (n + 1 + 1)) op d args s).1
        = ((mixed_dtype_dense op d
             (unwrappedArgs s.reapply_views_tls args) s).1).map
          (wrap_all_tensors_to_functional 0)
    ∧ (∀ v,
        (mixed_dtype_func (mixed_dtype_call (n + 1 + 1)) op d args s).1
            = Except.ok v →
        allTensorVal (fun t => t.functional == some 0) v = true)
    ∧ (mixed_dtype_func_transform (mixed_dtype_call (n + 1 + 1)) interp op
          d args s2).1
        = ((mixed_dtype_dense op d
             (unwrappedArgs interp.functionalize_add_back_views args)
             s2).1).map
          (wrap_all_tensors_to_functional interp.level)
    ∧ (∀ v,
        (mixed_dtype_func_transform (mixed_dtype_call (n + 1 + 1)) interp
            op d args s2).1 = Except.ok v →
        allTensorVal (fun t => t.functional == some interp.level) v
          = true) := by
  have h1 := run_func n op d args s hm hfi hg
  have h2 := run_transform n interp op d args s2 hm2 hfi2 hg
  refine ⟨?_, ?_, ?_, ?_⟩
  · rw [h1]
    rfl
  · intro v hv
    rw [h1] at hv
    have hv2 : (callRef op
        (castedArgs d (unwrappedArgs s.reapply_views_tls args))).map
        (wrap_all_tensors_to_functional 0) = Except.ok v := hv
    cases hres : callRef op
        (castedArgs d (unwrappedArgs s.reapply_views_tls args)) with
    | error e =>
      rw [hres] at hv2
      simp [Except.map] at hv2
    | ok w =>
      rw [hres] at hv2
      simp only [Except.map] at hv2
      have hw : wrap_all_tensors_to_functional 0 w = v :=
        Except.ok.inj hv2
      rw [← hw]
      exact wrap_level 0 w
  · rw [h2]
    rfl
  · intro v hv
    rw [h2] at hv
    have hv2 : (callRef op
        (castedArgs d
          (unwrappedArgs interp.functionalize_add_back_views args))).map
        (wrap_all_tensors_to_functional interp.level) = Except.ok v := hv
    cases hres : callRef op
        (castedArgs d
          (unwrappedArgs interp.functionalize_add_back_views args)) with
    | error e =>
      rw [hres] at hv2
      simp [Except.map] at hv2
    | ok w =>
      rw [hres] at hv2
      simp only [Except.map] at hv2
      have hw : wrap_all_tensors_to_functional interp.level w = v :=
        Except.ok.inj hv2
      rw [← hw]
      exact wrap_level interp.level w

/-- Witness for C6 at a concrete functionalized tensor argument. -/
theorem functionalize_round_trip_witness :
    allTensorList (fun f => !f.requires_grad) [Val.tensor tFun] = true
    ∧ (mixed_dtype_func (mixed_dtype_call 2) opConst3 DType.float16
        [Val.tensor tFun] st0).1
      = ((mixed_dtype_dense opConst3 DType.float16
           (unwrappedArgs st0.reapply_views_tls [Val.tensor tFun]) st0).1).map
        (wrap_all_tensors_to_functional 0) :=
  ⟨rfl, (functionalize_round_trip 0 interp2 opConst3 DType.float16
      [Val.tensor tFun] st0 stInterp rfl rfl rfl rfl rfl).1⟩

/-- C9 counterexample: at a concrete eager-mode call whose wrapped operation
returns a fixed float32 tensor, the target precision float16 is not carried
by the result: the claim that every invocation returns tensors of the target
precision fails on the code. -/
theorem result_dtype_not_always_target :
    (mixed_dtype_dense opConstF32 DType.float16 [Val.tensor t0] st0).1
      = Except.ok (Val.tensor t0)
    ∧ allTensorVal (fun t => t.dtype == DType.float16) (Val.tensor t0)
      = false :=
  ⟨rfl, rfl⟩

/-- C9 amended: provided the wrapped operation is precision-preserving —
whenever every tensor leaf of its inputs has dtype d, every tensor leaf of a
successful result has dtype d — every supported execution mode yields
results all of whose tensor components have the target precision: the
dense/eager handler, the shape-inference handler, the autograd handler, the
traced path under capture, and both functionalization handlers (whose
results additionally carry the functional wrapper, dtype preserved). -/
theorem all_modes_target_dtype (sem : List Val → Except PyErr Val)
    (d : DType)
    (hpres : ∀ xs v, allTensorList (fun t => t.dtype == d) xs = true →
      sem xs = Except.ok v →
      allTensorVal (fun t => t.dtype == d) v = true) :
    (∀ args s v,
      (mixed_dtype_dense (OpRef.overload sem) d args s).1 = Except.ok v →
      allTensorVal (fun t => t.dtype == d) v = true)
    ∧ (∀ args s v,
      (mixed_dtype_fake_tensor_mode (OpRef.overload sem) d args s).1
          = Except.ok v →
      allTensorVal (fun t => t.dtype == d) v = true)
    ∧ (∀ n args s v, s.modes = [] → s.func_interpreters = [] →
      hasFunctionalList args = false →
      allTensorList (fun f => !f.requires_grad) args = true →
      (mixed_dtype_autograd (mixed_dtype_call (n + 1)) (OpRef.overload sem)
          d args s).1 = Except.ok v →
      allTensorVal (fun t => t.dtype == d) v = true)
    ∧ (∀ n args s rest v, s.func_interpreters = [] →
      s.modes = Mode.proxy true :: rest →
      (mixed_dtype_call (n + 1) (OpRef.overload sem) d args s).1
          = Except.ok v →
      allTensorVal (fun t => t.dtype == d) v = true)
    ∧ (∀ n args s v, s.modes = [] → s.func_interpreters = [] →
      allTensorList (fun f => !f.requires_grad) args = true →
      (mixed_dtype_func (mixed_dtype_call (n + 1 + 1)) (OpRef.overload sem)
          d args s).1 = Except.ok v →
      allTensorVal (fun t => t.dtype == d) v = true)
    ∧ (∀ n interp args s v, s.modes = [] →
      s.func_interpreters.tail = [] →
      allTensorList (fun f => !f.requires_grad) args = true →
      (mixed_dtype_func_transform (mixed_dtype_call (n + 1 + 1)) interp
          (OpRef.overload sem) d args s).1 = Except.ok v →
      allTensorVal (fun t => t.dtype == d) v = true) := by
  refine ⟨?_, ?_, ?_, ?_, ?_, ?_⟩
  · intro args s v h
    exact hpres _ v (castedArgs_allDType d args) h
  · intro args s v h
    exact hpres _ v (castedArgs_allDType d args) h
  · intro n args s v hm hfi hnf hg h
    rw [run_autograd n (OpRef.overload sem) d args s hm hfi hnf hg] at h
    exact hpres _ v (castedArgs_allDType d args) h
  · intro n args s rest v hfi hmodes h
    cases hres : sem (castedArgs d args) with
    | error e =>
      rw [run_proxy_traced_err n sem d args s rest e hfi hmodes hres] at h
      exact Except.noConfusion h
    | ok w =>
      rw [run_proxy_traced n sem d args s rest w hfi hmodes hres] at h
      have hw : w = v := Except.ok.inj h
      rw [← hw]
      exact hpres _ w (castedArgs_allDType d args) hres
  · intro n args s v hm hfi hg h
    rw [run_func n (OpRef.overload sem) d args s hm hfi hg] at h
    have hv2 : (callRef (OpRef.overload sem)
        (castedArgs d (unwrappedArgs s.reapply_views_tls args))).map
        (wrap_all_tensors_to_functional 0) = Except.ok v := h
    cases hres : sem
        (castedArgs d (unwrappedArgs s.reapply_views_tls args)) with
    | error e =>
      rw [show callRef (OpRef.overload sem)
          (castedArgs d (unwrappedArgs s.reapply_views_tls args))
          = Except.error e from hres] at hv2
      simp [Except.map] at hv2
    | ok w =>
      rw [show callRef (OpRef.overload sem)
          (castedArgs d (unwrappedArgs s.reapply_views_tls args))
          = Except.ok w from hres] at hv2
      simp only [Except.map] at hv2
      have hw : wrap_all_tensors_to_functional 0 w = v :=
        Except.ok.inj hv2
      rw [← hw]
      exact wrap_allDType 0 d w
        (hpres _ w (castedArgs_allDType d _) hres)
  · intro n interp args s v hm hfi hg h
    rw [run_transform n interp (OpRef.overload sem) d args s hm hfi hg] at h
    have hv2 : (callRef (OpRef.overload sem)
        (castedArgs d
          (unwrappedArgs interp.functionalize_add_back_views args))).map
        (wrap_all_tensors_to_functional interp.level) = Except.ok v := h
    cases hres : sem
        (castedArgs d
          (unwrappedArgs interp.functionalize_add_back_views args)) with
    | error e =>
      rw [show callRef (OpRef.overload sem)
          (castedArgs d
            (unwrappedArgs interp.functionalize_add_back_views args))
          = Except.error e from hres] at hv2
      simp [Except.map] at hv2
    | ok w =>
      rw [show callRef (OpRef.overload sem)
          (castedArgs d
            (unwrappedArgs interp.functionalize_add_back_views args))
          = Except.ok w from hres] at hv2
      simp only [Except.map] at hv2
      have hw : wrap_all_tensors_to_functional interp.level w = v :=
        Except.ok.inj hv2
      rw [← hw]
      exact wrap_allDType interp.level d w
        (hpres _ w (castedArgs_allDType d _) hres)

/-- Witness for the amended C9 with a concrete precision-preserving
operation, exercised through the dense handler. -/
theorem all_modes_target_dtype_witness :
    (mixed_dtype_dense opConst3 DType.float16 [Val.tensor t0] st0).1
        = Except.ok (Val.const 3)
    ∧ allTensorVal (fun t => t.dtype == DType.float16) (Val.const 3)
        = true := by
  refine ⟨rfl, ?_⟩
  exact (all_modes_target_dtype semConst3 DType.float16
      (fun xs v hx hv => by
        have hv2 : Val.const 3 = v := Except.ok.inj hv
        rw [← hv2]
        rfl)).1 [Val.tensor t0] st0 (Val.const 3) rfl

end MixedDtype
